import Mathlib

/-!
Verification development for the EBU Teletext elementary-stream parser
(`packager/media/formats/mp2t/es_parser_teletext.{h,cc}`).

The C++ code is shallowly embedded: byte buffers are `List Nat` (each entry a
byte value 0..255), `std::string` text is a byte string `List Nat`, the
`unordered_map` members are association lists, member mutation is explicit
state passing on the `EsParserTeletext` structure, and the sample-emission
callback is modelled by returning the list of emitted samples.  A bit-reader
read failure (`RCHECK` returning `false`) is modelled by the `Bool`/`Option`
component of the corresponding result.
-/

/-- ASCII bytes of a Lean string literal; used to write expected byte strings
readably in theorem statements. -/
def asciiBytes (s : String) : List Nat :=
  s.data.map Char.toNat

/-- `EBU_TELETEXT_WITH_SUBTITLING` from es_parser_teletext.cc. -/
def EBU_TELETEXT_WITH_SUBTITLING : Nat := 0x03

/-- The 256-entry bit-reversal table `BITREVERSE_8` from es_parser_teletext.cc
(entry `b` is `b` with its 8 bits reversed). -/
def BITREVERSE_8 : List Nat := [
    0x00, 0x80, 0x40, 0xC0, 0x20, 0xA0, 0x60, 0xE0, 0x10, 0x90, 0x50, 0xD0,
    0x30, 0xB0, 0x70, 0xF0, 0x08, 0x88, 0x48, 0xC8, 0x28, 0xA8, 0x68, 0xE8,
    0x18, 0x98, 0x58, 0xD8, 0x38, 0xB8, 0x78, 0xF8, 0x04, 0x84, 0x44, 0xC4,
    0x24, 0xA4, 0x64, 0xE4, 0x14, 0x94, 0x54, 0xD4, 0x34, 0xB4, 0x74, 0xF4,
    0x0C, 0x8C, 0x4C, 0xCC, 0x2C, 0xAC, 0x6C, 0xEC, 0x1C, 0x9C, 0x5C, 0xDC,
    0x3C, 0xBC, 0x7C, 0xFC, 0x02, 0x82, 0x42, 0xC2, 0x22, 0xA2, 0x62, 0xE2,
    0x12, 0x92, 0x52, 0xD2, 0x32, 0xB2, 0x72, 0xF2, 0x0A, 0x8A, 0x4A, 0xCA,
    0x2A, 0xAA, 0x6A, 0xEA, 0x1A, 0x9A, 0x5A, 0xDA, 0x3A, 0xBA, 0x7A, 0xFA,
    0x06, 0x86, 0x46, 0xC6, 0x26, 0xA6, 0x66, 0xE6, 0x16, 0x96, 0x56, 0xD6,
    0x36, 0xB6, 0x76, 0xF6, 0x0E, 0x8E, 0x4E, 0xCE, 0x2E, 0xAE, 0x6E, 0xEE,
    0x1E, 0x9E, 0x5E, 0xDE, 0x3E, 0xBE, 0x7E, 0xFE, 0x01, 0x81, 0x41, 0xC1,
    0x21, 0xA1, 0x61, 0xE1, 0x11, 0x91, 0x51, 0xD1, 0x31, 0xB1, 0x71, 0xF1,
    0x09, 0x89, 0x49, 0xC9, 0x29, 0xA9, 0x69, 0xE9, 0x19, 0x99, 0x59, 0xD9,
    0x39, 0xB9, 0x79, 0xF9, 0x05, 0x85, 0x45, 0xC5, 0x25, 0xA5, 0x65, 0xE5,
    0x15, 0x95, 0x55, 0xD5, 0x35, 0xB5, 0x75, 0xF5, 0x0D, 0x8D, 0x4D, 0xCD,
    0x2D, 0xAD, 0x6D, 0xED, 0x1D, 0x9D, 0x5D, 0xDD, 0x3D, 0xBD, 0x7D, 0xFD,
    0x03, 0x83, 0x43, 0xC3, 0x23, 0xA3, 0x63, 0xE3, 0x13, 0x93, 0x53, 0xD3,
    0x33, 0xB3, 0x73, 0xF3, 0x0B, 0x8B, 0x4B, 0xCB, 0x2B, 0xAB, 0x6B, 0xEB,
    0x1B, 0x9B, 0x5B, 0xDB, 0x3B, 0xBB, 0x7B, 0xFB, 0x07, 0x87, 0x47, 0xC7,
    0x27, 0xA7, 0x67, 0xE7, 0x17, 0x97, 0x57, 0xD7, 0x37, 0xB7, 0x77, 0xF7,
    0x0F, 0x8F, 0x4F, 0xCF, 0x2F, 0xAF, 0x6F, 0xEF, 0x1F, 0x9F, 0x5F, 0xDF,
    0x3F, 0xBF, 0x7F, 0xFF]

/-- `CHARSET_G0_LATIN` from es_parser_teletext.cc: 96 rows of 3 bytes each
(UTF-8 sequence, zero padded), indexed by teletext code minus 0x20. -/
def CHARSET_G0_LATIN : List (List Nat) := [
    [0x20, 0x0, 0x0],  [0x21, 0x0, 0x0],  [0x22, 0x0, 0x0],  [0xc2, 0xa3, 0x0],
    [0x24, 0x0, 0x0],  [0x25, 0x0, 0x0],  [0x26, 0x0, 0x0],  [0x27, 0x0, 0x0],
    [0x28, 0x0, 0x0],  [0x29, 0x0, 0x0],  [0x2a, 0x0, 0x0],  [0x2b, 0x0, 0x0],
    [0x2c, 0x0, 0x0],  [0x2d, 0x0, 0x0],  [0x2e, 0x0, 0x0],  [0x2f, 0x0, 0x0],
    [0x30, 0x0, 0x0],  [0x31, 0x0, 0x0],  [0x32, 0x0, 0x0],  [0x33, 0x0, 0x0],
    [0x34, 0x0, 0x0],  [0x35, 0x0, 0x0],  [0x36, 0x0, 0x0],  [0x37, 0x0, 0x0],
    [0x38, 0x0, 0x0],  [0x39, 0x0, 0x0],  [0x3a, 0x0, 0x0],  [0x3b, 0x0, 0x0],
    [0x3c, 0x0, 0x0],  [0x3d, 0x0, 0x0],  [0x3e, 0x0, 0x0],  [0x3f, 0x0, 0x0],
    [0x40, 0x0, 0x0],  [0x41, 0x0, 0x0],  [0x42, 0x0, 0x0],  [0x43, 0x0, 0x0],
    [0x44, 0x0, 0x0],  [0x45, 0x0, 0x0],  [0x46, 0x0, 0x0],  [0x47, 0x0, 0x0],
    [0x48, 0x0, 0x0],  [0x49, 0x0, 0x0],  [0x4a, 0x0, 0x0],  [0x4b, 0x0, 0x0],
    [0x4c, 0x0, 0x0],  [0x4d, 0x0, 0x0],  [0x4e, 0x0, 0x0],  [0x4f, 0x0, 0x0],
    [0x50, 0x0, 0x0],  [0x51, 0x0, 0x0],  [0x52, 0x0, 0x0],  [0x53, 0x0, 0x0],
    [0x54, 0x0, 0x0],  [0x55, 0x0, 0x0],  [0x56, 0x0, 0x0],  [0x57, 0x0, 0x0],
    [0x58, 0x0, 0x0],  [0x59, 0x0, 0x0],  [0x5a, 0x0, 0x0],  [0xc2, 0xab, 0x0],
    [0xc2, 0xbd, 0x0], [0xc2, 0xbb, 0x0], [0x5e, 0x0, 0x0],  [0x23, 0x0, 0x0],
    [0x2d, 0x0, 0x0],  [0x61, 0x0, 0x0],  [0x62, 0x0, 0x0],  [0x63, 0x0, 0x0],
    [0x64, 0x0, 0x0],  [0x65, 0x0, 0x0],  [0x66, 0x0, 0x0],  [0x67, 0x0, 0x0],
    [0x68, 0x0, 0x0],  [0x69, 0x0, 0x0],  [0x6a, 0x0, 0x0],  [0x6b, 0x0, 0x0],
    [0x6c, 0x0, 0x0],  [0x6d, 0x0, 0x0],  [0x6e, 0x0, 0x0],  [0x6f, 0x0, 0x0],
    [0x70, 0x0, 0x0],  [0x71, 0x0, 0x0],  [0x72, 0x0, 0x0],  [0x73, 0x0, 0x0],
    [0x74, 0x0, 0x0],  [0x75, 0x0, 0x0],  [0x76, 0x0, 0x0],  [0x77, 0x0, 0x0],
    [0x78, 0x0, 0x0],  [0x79, 0x0, 0x0],  [0x7a, 0x0, 0x0],  [0xc2, 0xbc, 0x0],
    [0xc2, 0xa6, 0x0], [0xc2, 0xbe, 0x0], [0xc3, 0xb7, 0x0], [0x7f, 0x0, 0x0]]

/-- `NATIONAL_CHAR_INDEX_G0` from es_parser_teletext.cc. -/
def NATIONAL_CHAR_INDEX_G0 : List Nat :=
  [0x03, 0x04, 0x20, 0x3b, 0x3c, 0x3d, 0x3e, 0x3f, 0x40, 0x5b, 0x5c, 0x5d, 0x5e]

/-- `PORTUGUESE_SPANISH` overlay rows from es_parser_teletext.cc. -/
def PORTUGUESE_SPANISH : List (List Nat) := [
    [0xc3, 0xa7, 0x0], [0x24, 0x0, 0x0],  [0xc2, 0xa1, 0x0], [0xc3, 0xa1, 0x0],
    [0xc3, 0xa9, 0x0], [0xc3, 0xad, 0x0], [0xc3, 0xb3, 0x0], [0xc3, 0xba, 0x0],
    [0xc2, 0xbf, 0x0], [0xc3, 0xbc, 0x0], [0xc3, 0xb1, 0x0], [0xc3, 0xa8, 0x0],
    [0xc3, 0xa0, 0x0]]

/-- `CHARSET_PORTUGUESE_SPANISH` from es_parser_teletext.cc. -/
def CHARSET_PORTUGUESE_SPANISH : Nat := 5

/-- A 3-byte table row is used as a C string: bytes up to the first NUL. -/
def cstr (row : List Nat) : List Nat :=
  row.takeWhile (fun b => b ≠ 0)

/-- `bit(value, bit_pos)` from es_parser_teletext.cc: `(value >> bit_pos) & 1`,
written with division and remainder. -/
def bit (value : Nat) (bit_pos : Nat) : Nat :=
  value / 2 ^ bit_pos % 2

/-- `hamming_8_4` from es_parser_teletext.cc: the loop runs `i = 0,2,4,6`,
takes the bit at position `6 - i` and adds it weighted by `2 ^ (i / 2)`;
here the loop index is `j = i / 2`. -/
def hamming_8_4 (value : Nat) : Nat :=
  (List.range 4).foldl (fun result j => result + 2 ^ j * bit value (6 - 2 * j)) 0

/-- `unordered_map::find`, on the association-list model. -/
def mapFind {β : Type} (m : List (Nat × β)) (k : Nat) : Option β :=
  (m.find? (fun p => p.1 == k)).map (fun p => p.2)

/-- `unordered_map::erase(key)`, on the association-list model. -/
def eraseKey {β : Type} (m : List (Nat × β)) (k : Nat) : List (Nat × β) :=
  m.filter (fun p => !(p.1 == k))

/-- `unordered_map::emplace`: inserts only when the key is not present. -/
def emplaceKey {β : Type} (m : List (Nat × β)) (k : Nat) (v : β) : List (Nat × β) :=
  if (mapFind m k).isSome then m else m ++ [(k, v)]

/-- The loop body of `ParseSubtitlingDescriptor` (es_parser_teletext.cc,
lines 120-149): each iteration reads one 5-byte group (24-bit language code,
5-bit teletext type, 3-bit magazine with 0 remapped to 8, two 4-bit page
digits) and `emplace`s `magazine*100+page ↦ language`; the loop counter
advances by 8 per iteration.  The `Bool` is the function's return value and
the list is the by-reference `result` map, kept even on failure. -/
def descLoop (i : Nat) (data_size : Nat) (bytes : List Nat)
    (result : List (Nat × List Nat)) : List (Nat × List Nat) × Bool :=
  if i < data_size then
    match bytes with
    | c1 :: c2 :: c3 :: tm :: pg :: rest =>
      let magazine0 := tm % 8
      let magazine_number := if magazine0 = 0 then 8 else magazine0
      let page_tenths := pg / 16
      let page_digit := pg % 16
      let page_number := page_tenths * 10 + page_digit
      let lang : List Nat := [c1, c2, c3]
      let index := magazine_number * 100 + page_number
      descLoop (i + 8) data_size rest (emplaceKey result index lang)
    | _ => (result, false)
  else (result, true)

/-- `ParseSubtitlingDescriptor` from es_parser_teletext.cc: skips the tag
byte, reads the length byte, checks `data_size + 2 <= size`, then runs the
5-byte-group loop.  Returns the accumulated map and the success flag. -/
def ParseSubtitlingDescriptor (descriptor : List Nat) :
    List (Nat × List Nat) × Bool :=
  match descriptor with
  | _tag :: data_size :: rest =>
    if data_size + 2 ≤ descriptor.length then descLoop 0 data_size rest []
    else ([], false)
  | _ => ([], false)

/-- `TextBlock` (pending page): accumulated lines and the captured start
PTS, as used by es_parser_teletext.cc. -/
structure TextBlock where
  lines : List (List Nat)
  pts : Int
deriving DecidableEq

/-- The observable content of an emitted `TextSample`: start/end time, the
sub-stream index, and the fragment lines (joined by line breaks downstream;
a single line becomes a single plain fragment). -/
structure TextSample where
  start_time : Int
  end_time : Int
  sub_stream_index : Nat
  lines : List (List Nat)
deriving DecidableEq

/-- The mutable member state of class `EsParserTeletext` as used by
es_parser_teletext.cc. -/
structure EsParserTeletext where
  magazine_ : Nat
  page_number_ : Nat
  charset_code_ : Nat
  current_charset_ : List (List Nat)
  page_state_ : List (Nat × TextBlock)
  languages_ : List (Nat × List Nat)
  sent_info_ : Bool
deriving DecidableEq

/-- The charset table produced by `UpdateCharset` for a given charset code:
a fresh copy of `CHARSET_G0_LATIN`, overlaid at the 13 national positions
with `PORTUGUESE_SPANISH` when the code is `CHARSET_PORTUGUESE_SPANISH`. -/
def computeCharset (charset_code : Nat) : List (List Nat) :=
  if charset_code = CHARSET_PORTUGUESE_SPANISH then
    (List.range 13).foldl
      (fun cs i => cs.set (NATIONAL_CHAR_INDEX_G0.getD i 0)
        (PORTUGUESE_SPANISH.getD i []))
      CHARSET_G0_LATIN
  else CHARSET_G0_LATIN

/-- `EsParserTeletext::UpdateCharset` from es_parser_teletext.cc. -/
def EsParserTeletext.UpdateCharset (st : EsParserTeletext) : EsParserTeletext :=
  { st with current_charset_ := computeCharset st.charset_code_ }

/-- The `EsParserTeletext` constructor: parses the subtitling descriptor
into `languages_` (keeping whatever was emplaced even on failure), zeroes
`magazine_`, `page_number_`, `charset_code_`, and calls `UpdateCharset`. -/
def EsParserTeletext.init (descriptor : List Nat) : EsParserTeletext :=
  EsParserTeletext.UpdateCharset
    { magazine_ := 0
      page_number_ := 0
      charset_code_ := 0
      current_charset_ := []
      page_state_ := []
      languages_ := (ParseSubtitlingDescriptor descriptor).1
      sent_info_ := false }

/-- `EsParserTeletext::SendPending` from es_parser_teletext.cc: if a pending
page exists at `index` and has at least one line, build a text sample from
its lines with start time `pending_pts`, end time `pts` and sub-stream index
`index`, emit it, and erase the entry.  Otherwise nothing happens. -/
def EsParserTeletext.SendPending (index : Nat) (pts : Int)
    (st : EsParserTeletext) : EsParserTeletext × List TextSample :=
  match mapFind st.page_state_ index with
  | none => (st, [])
  | some blk =>
    if blk.lines = [] then (st, [])
    else
      ({ st with page_state_ := eraseKey st.page_state_ index },
        [{ start_time := blk.pts, end_time := pts,
           sub_stream_index := index, lines := blk.lines }])

/-- The per-byte decode of the payload loop in
`EsParserTeletext::ParseDataBlock` (es_parser_teletext.cc lines 317-322):
bit-reverse the byte, mask to 7 bits (`& 0x7f`, written `% 128`), and
substitute space when the value is `< 32` or `> 122`. -/
def decodeChar (b : Nat) : Nat :=
  let next_char := BITREVERSE_8.getD b 0 % 128
  if next_char < 32 ∨ 122 < next_char then 0x20 else next_char

/-- The `switch` of the payload loop (es_parser_teletext.cc lines 331-342):
`&` and `<` append their HTML escapes, any other kept character appends the
current charset row (read as a C string). -/
def appendEntry (charset : List (List Nat)) (c : Nat) : List Nat :=
  if c = 38 then asciiBytes "&amp;"
  else if c = 60 then asciiBytes "&lt;"
  else cstr (charset.getD (c - 0x20) [])

/-- The payload loop of `EsParserTeletext::ParseDataBlock`
(es_parser_teletext.cc lines 315-343): walks the payload bytes keeping a
`leading_spaces` flag; decoded spaces are skipped while the flag is set,
every other decoded character is appended via `appendEntry`. -/
def decodeLineGo (charset : List (List Nat)) :
    List Nat → Bool → List Nat → List Nat
  | [], _, acc => acc
  | b :: rest, leading_spaces, acc =>
    let next_char := decodeChar b
    if leading_spaces && (next_char == 0x20) then
      decodeLineGo charset rest leading_spaces acc
    else
      decodeLineGo charset rest false (acc ++ appendEntry charset next_char)

/-- The full payload-to-text decode of a packet numbered 1..25: the loop of
es_parser_teletext.cc lines 312-345 starting with `leading_spaces = true`
and an empty string.  No trailing-space stripping follows the loop. -/
def decodeLine (charset : List (List Nat)) (data_block : List Nat) : List Nat :=
  decodeLineGo charset data_block true []

/-- `EsParserTeletext::ParseDataBlock` from es_parser_teletext.cc.  The
`Option (List Nat)` component is `some display_text` when the function
returns `true` (a displayable line was produced), `none` when it returns
`false`.  For `packet_nr == 0`: Hamming-decode the page digits, call
`SendPending` on the new index, update `magazine_`/`page_number_`, bail out
on the 0xFF sentinel, then decode the charset subcode (byte 7 of the block)
and recompute the charset table when it changed. -/
def EsParserTeletext.ParseDataBlock (pts : Int) (data_block : List Nat)
    (packet_nr : Nat) (magazine : Nat) (st : EsParserTeletext) :
    EsParserTeletext × List TextSample × Option (List Nat) :=
  if packet_nr = 0 then
    match data_block with
    | b0 :: b1 :: rest =>
      let page_number_units := hamming_8_4 b0
      let page_number_tens := hamming_8_4 b1
      let page_number := 10 * page_number_tens + page_number_units
      let index := magazine * 100 + page_number
      let r := EsParserTeletext.SendPending index pts st
      let st1 := r.1
      let samples := r.2
      let st2 := { st1 with page_number_ := page_number, magazine_ := magazine }
      if page_number = 0xFF then (st2, samples, none)
      else
        match rest.drop 5 with
        | b7 :: _ =>
          let subcode_c11_c14 := hamming_8_4 b7
          let charset_code := subcode_c11_c14 / 2
          if charset_code ≠ st2.charset_code_ then
            (EsParserTeletext.UpdateCharset
              { st2 with charset_code_ := charset_code }, samples, none)
          else (st2, samples, none)
        | [] => (st2, samples, none)
    | _ => (st, [], none)
  else if 25 < packet_nr then (st, [], none)
  else (st, [], some (decodeLine st.current_charset_ data_block))

/-- The `while (reader.bits_available())` loop of
`EsParserTeletext::ParseInternal` (es_parser_teletext.cc lines 207-256),
after the initial data-identifier byte was skipped.  Reads data units of the
form id byte, length byte, 44 payload bytes; a length other than 44 breaks
out of the loop, a non-subtitling id skips the unit, otherwise the 16-bit
address is decoded into magazine (bits 14,12,10; 0 remapped to 8) and packet
number (bits 8,6,4,2,0) and the 40-byte block goes to `ParseDataBlock`.
The `Option` result is `some lines` on normal loop exit and `none` when an
`RCHECK`ed read fails (the C++ `return false`); emitted samples and state
changes made before a failure persist.  The while loop is driven by a fuel
counter so that the recursion is structural; `parseLoop` below supplies
`bytes.length`, which is always sufficient. -/
def parseLoopF (fuel : Nat) (st : EsParserTeletext) (pts : Int)
    (bytes : List Nat) (lines : List (List Nat)) (samples : List TextSample) :
    EsParserTeletext × List TextSample × Option (List (List Nat)) :=
  match bytes with
  | [] => (st, samples, some lines)
  | [_] => (st, samples, none)
  | data_unit_id :: data_unit_length :: rest =>
    match fuel with
    | 0 => (st, samples, none)
    | fuel + 1 =>
      if data_unit_length ≠ 44 then (st, samples, some lines)
      else if data_unit_id ≠ EBU_TELETEXT_WITH_SUBTITLING then
        if rest.length < 44 then (st, samples, none)
        else parseLoopF fuel st pts (rest.drop 44) lines samples
      else
        match rest with
        | _b0 :: _framing_code :: a1 :: a2 :: rest2 =>
          if rest2.length < 40 then (st, samples, none)
          else
            let address_bits := a1 * 256 + a2
            let magazine0 := bit address_bits 14 + 2 * bit address_bits 12 +
              4 * bit address_bits 10
            let magazine := if magazine0 = 0 then 8 else magazine0
            let packet_nr := bit address_bits 8 + 2 * bit address_bits 6 +
              4 * bit address_bits 4 + 8 * bit address_bits 2 +
              16 * bit address_bits 0
            let data_block := rest2.take 40
            match EsParserTeletext.ParseDataBlock pts data_block packet_nr
              magazine st with
            | (st', newSamples, some display_text) =>
              parseLoopF fuel st' pts (rest2.drop 40) (lines ++ [display_text])
                (samples ++ newSamples)
            | (st', newSamples, none) =>
              parseLoopF fuel st' pts (rest2.drop 40) lines
                (samples ++ newSamples)
        | _ => (st, samples, none)

/-- The data-unit loop, run with enough fuel for the whole buffer: every
iteration consumes at least 2 bytes and spends 1 fuel, so starting from
`bytes.length` the fuel-exhaustion branch of `parseLoopF` is unreachable
(`parseLoopF_fuel` below makes this formal). -/
def parseLoop (st : EsParserTeletext) (pts : Int) (bytes : List Nat)
    (lines : List (List Nat)) (samples : List TextSample) :
    EsParserTeletext × List TextSample × Option (List (List Nat)) :=
  parseLoopF bytes.length st pts bytes lines samples

/-- The tail of `EsParserTeletext::ParseInternal` (es_parser_teletext.cc
lines 258-274): if any lines were decoded, append them to the pending page
at the current `magazine_*100 + page_number_` index, creating the entry
(and capturing the buffer PTS) when absent. -/
def commitLines (st : EsParserTeletext) (lines : List (List Nat))
    (pts : Int) : EsParserTeletext :=
  if lines = [] then st
  else
    let index := st.magazine_ * 100 + st.page_number_
    match mapFind st.page_state_ index with
    | none =>
      { st with page_state_ :=
          emplaceKey st.page_state_ index { lines := lines, pts := pts } }
    | some _ =>
      let updated := st.page_state_.map (fun p =>
        if p.1 = index then
          (p.1, { lines := p.2.lines ++ lines, pts := p.2.pts : TextBlock })
        else p)
      { st with page_state_ := updated }

/-- `EsParserTeletext::ParseInternal` from es_parser_teletext.cc: skip the
data-identifier byte, run the data-unit loop, then commit decoded lines.
The `Bool` is the return value; samples are the emitted callbacks. -/
def EsParserTeletext.ParseInternal (st : EsParserTeletext) (data : List Nat)
    (pts : Int) : EsParserTeletext × List TextSample × Bool :=
  match data with
  | [] => (st, [], false)
  | _ :: rest =>
    match parseLoop st pts rest [] [] with
    | (st', samples, none) => (st', samples, false)
    | (st', samples, some lines) => (commitLines st' lines pts, samples, true)

/-- `EsParserTeletext::Parse` from es_parser_teletext.cc: on the first call
it marks `sent_info_` and announces the stream (not further modelled), then
always defers to `ParseInternal`. -/
def EsParserTeletext.Parse (st : EsParserTeletext) (data : List Nat)
    (pts : Int) : EsParserTeletext × List TextSample × Bool :=
  EsParserTeletext.ParseInternal { st with sent_info_ := true } data pts

/-- `EsParserTeletext::Flush` from es_parser_teletext.cc: the body is
`return true;` — no sample is emitted and no state is touched. -/
def EsParserTeletext.Flush (st : EsParserTeletext) :
    EsParserTeletext × List TextSample × Bool :=
  (st, [], true)

/-- `EsParserTeletext::Reset` from es_parser_teletext.cc: the body is
empty — no state is touched. -/
def EsParserTeletext.Reset (st : EsParserTeletext) : EsParserTeletext :=
  st

/-- Feeding a sequence of PES buffers (each with its PTS) through `Parse`,
collecting every emitted sample in order. -/
def ParseAll (st : EsParserTeletext) :
    List (List Nat × Int) → EsParserTeletext × List TextSample
  | [] => (st, [])
  | (data, pts) :: rest =>
    let r := EsParserTeletext.Parse st data pts
    let r2 := ParseAll r.1 rest
    (r2.1, r.2.1 ++ r2.2)

/-- A teletext data unit carrying a page header for magazine 1, page 12
(address `0x4000`: magazine bits decode to 1, packet bits to 0; data-block
bytes 0/1 Hamming-decode to units 2 and tens 1; subcode byte 7 decodes to
charset code 0). -/
def headerUnit112 : List Nat :=
  [0x03, 44, 0x00, 0xE4, 0x40, 0x00] ++ ([0x10, 0x40] ++ List.replicate 38 0)

/-- A 40-byte payload whose bytes bit-reverse to `T`, `E`, `S`, `T`
followed by 36 bytes that decode to spaces. -/
def payloadTEST : List Nat := [0x2A, 0xA2, 0xCA, 0x2A] ++ List.replicate 36 0x04

/-- A subtitling data unit with address `0x4110` (magazine 1, packet
number 5) carrying `payloadTEST`. -/
def payloadUnitTEST : List Nat :=
  [0x03, 44, 0x00, 0xE4, 0x41, 0x10] ++ payloadTEST

/-- A subtitling data unit with address `0x4110` (magazine 1, packet
number 5) whose 40 payload bytes all decode to spaces. -/
def payloadUnitBlank : List Nat :=
  [0x03, 44, 0x00, 0xE4, 0x41, 0x10] ++ List.replicate 40 0

/-- PES buffer: data identifier, header for page 112, payload `TEST`. -/
def buf1 : List Nat := [0x10] ++ headerUnit112 ++ payloadUnitTEST

/-- PES buffer: data identifier and a repeated header for page 112. -/
def buf2 : List Nat := [0x10] ++ headerUnit112

/-- PES buffer: data identifier and a packet-number-5 payload, with no
header packet anywhere. -/
def buf5 : List Nat := [0x10] ++ payloadUnitTEST

/-- PES buffer: header for page 112 followed by an all-blank payload. -/
def bufHdrBlank : List Nat := [0x10] ++ headerUnit112 ++ payloadUnitBlank

/-- PES buffer: a blank payload only (no header). -/
def bufBlank : List Nat := [0x10] ++ payloadUnitBlank

/-- PES buffer: the `TEST` payload unit followed by a data unit whose
declared length is 43 instead of 44 (with a trailing garbage byte). -/
def bufBadLength : List Nat := [0x10] ++ payloadUnitTEST ++ [0x03, 43, 0x99]

/-- A three-entry subtitling descriptor: `eng` magazine 1 page 10, `swe`
magazine 2 page 20, `fin` magazine 3 page 30; declared length 15. -/
def descThreeEntries : List Nat :=
  [0x56, 15] ++ [0x65, 0x6E, 0x67, 0x11, 0x10] ++
    [0x73, 0x77, 0x65, 0x12, 0x20] ++ [0x66, 0x69, 0x6E, 0x13, 0x30]

/-- A parser state holding one pending page `{lines:["X"], start_pts:500}`
at index 112, as in the spec's `Flush` scenario. -/
def pendingX112 : EsParserTeletext :=
  { EsParserTeletext.init [] with
      page_state_ := [(112, { lines := [asciiBytes "X"], pts := 500 })] }

/-- A parser state with non-default values in every field `Reset` is
supposed to clear: a pending page, current magazine/page, and the
Portuguese/Spanish charset selected. -/
def dirtyState : EsParserTeletext :=
  { EsParserTeletext.init [] with
      magazine_ := 1
      page_number_ := 12
      charset_code_ := 5
      current_charset_ := computeCharset 5
      page_state_ := [(112, { lines := [asciiBytes "X"], pts := 500 })] }

/-- A parser state positioned at page 112 (as after a header for magazine 1,
page 12) with an empty pending map. -/
def at112State : EsParserTeletext :=
  { EsParserTeletext.init [] with magazine_ := 1, page_number_ := 12 }

/-- The sample the two-buffer page-repetition scenario actually emits. -/
def sample112 : TextSample :=
  { start_time := 1000, end_time := 2000, sub_stream_index := 112,
    lines := [asciiBytes "TEST" ++ List.replicate 36 0x20] }

/-- A payload whose bytes decode to `A&B<C` then 35 spaces. -/
def payloadEscapes : List Nat :=
  [0x82, 0x64, 0x42, 0x3C, 0xC2] ++ List.replicate 35 0x04

/-- Looking a key up right after erasing it finds nothing. -/
theorem mapFind_eraseKey {β : Type} (m : List (Nat × β)) (k : Nat) :
    mapFind (eraseKey m k) k = none := by
  induction m with
  | nil => rfl
  | cons p t ih =>
    by_cases h : p.1 = k
    · simp only [eraseKey, List.filter_cons, h] at ih ⊢
      simp [ih]
    · simp only [eraseKey, mapFind, List.filter_cons, List.find?_cons, h] at ih ⊢
      simp [h, ih]

/-- C1: with one pending page `{lines:["X"], start_pts:500}` at index 112,
`Flush` emits no sample at all, leaves the pending page in place, and a
second `Flush` likewise emits nothing — the code's `Flush` body is just
`return true;`, contradicting the specified emit-and-drain behaviour. -/
theorem claim1_flush_emits_nothing_and_keeps_pending :
    EsParserTeletext.Flush pendingX112 = (pendingX112, [], true) ∧
    mapFind (EsParserTeletext.Flush pendingX112).1.page_state_ 112 =
      some { lines := [asciiBytes "X"], pts := 500 } ∧
    (EsParserTeletext.Flush (EsParserTeletext.Flush pendingX112).1).2.1 = [] :=
  ⟨rfl, by decide, rfl⟩

/-- C3: on a state with a pending page, non-zero current magazine/page,
and the Portuguese/Spanish charset active, `Reset` (whose body is empty)
changes nothing: the pending page survives and no field is zeroed,
contradicting the specified discard/zero/recompute behaviour. -/
theorem claim3_reset_changes_nothing :
    EsParserTeletext.Reset dirtyState = dirtyState ∧
    dirtyState.page_state_ ≠ [] ∧
    dirtyState.magazine_ ≠ 0 ∧
    dirtyState.page_number_ ≠ 0 ∧
    dirtyState.charset_code_ ≠ 0 ∧
    dirtyState.current_charset_ ≠ computeCharset 0 :=
  ⟨rfl, by decide, by decide, by decide, by decide, by decide⟩

/-- C4 counterexample: a payload decoding to `HI` followed by 38 space
bytes is stored with its trailing spaces intact, not as `"HI"`: the decode
loop never strips trailing spaces. -/
theorem claim4_counterexample_trailing_spaces_kept :
    (EsParserTeletext.ParseDataBlock 0 ([0x12, 0x92] ++ List.replicate 38 0x04)
        5 1 (EsParserTeletext.init [])).2.2 =
      some (asciiBytes "HI" ++ List.replicate 38 0x20) ∧
    asciiBytes "HI" ++ List.replicate 38 0x20 ≠ asciiBytes "HI" := by
  constructor
  · decide
  · decide

/-- C4 amended: leading spaces are removed and internal spaces preserved,
but trailing spaces are NOT stripped: `"HI"` plus trailing space bytes keeps
its spaces, `"   HI"` loses only the leading ones, and `"HI  THERE"` keeps
its internal spacing (each payload is 40 bytes, so spaces pad to the end). -/
theorem claim4_amended_space_handling :
    decodeLine (computeCharset 0) ([0x12, 0x92] ++ List.replicate 38 0x04) =
      asciiBytes "HI" ++ List.replicate 38 0x20 ∧
    decodeLine (computeCharset 0)
        ([0x04, 0x04, 0x04] ++ [0x12, 0x92] ++ List.replicate 35 0x04) =
      asciiBytes "HI" ++ List.replicate 35 0x20 ∧
    decodeLine (computeCharset 0)
        ([0x12, 0x92, 0x04, 0x04] ++ [0x2A, 0x12, 0xA2, 0x4A, 0xA2] ++
          List.replicate 31 0x04) =
      asciiBytes "HI  THERE" ++ List.replicate 31 0x20 := by
  refine ⟨by decide, by decide, by decide⟩

/-- C5 counterexample: byte `0xDE` bit-reverses (masked to 7 bits) to
`0x7B`, which lies inside the claimed printable range `[0x20, 0x7F]` and is
mapped by the charset table to a non-space glyph (`¼`, UTF-8 `C2 BC`), yet
the code substitutes a space for it: the actual upper bound is 122. -/
theorem claim5_counterexample_0x7B_substituted :
    BITREVERSE_8.getD 0xDE 0 % 128 = 0x7B ∧
    0x20 ≤ 0x7B ∧ 0x7B ≤ 0x7F ∧
    decodeChar 0xDE = 0x20 ∧
    cstr ((computeCharset 0).getD (0x7B - 0x20) []) = [0xc2, 0xbc] ∧
    (0x20 : Nat) ≠ 0x7B := by
  refine ⟨by decide, by decide, by decide, by decide, by decide, by decide⟩

/-- C5 amended: the bit-reversed-and-masked value is substituted with space
exactly when it lies outside `[0x20, 0x7A]` (the code's bound is 122, not
0x7F); values inside that range are kept, and kept `&`/`<` characters emit
their HTML escapes, as the `A&B<C` payload decode shows. -/
theorem claim5_amended_printable_bound :
    (∀ b : Nat, b < 256 →
      ((BITREVERSE_8.getD b 0 % 128 < 0x20 ∨ 0x7A < BITREVERSE_8.getD b 0 % 128) →
        decodeChar b = 0x20) ∧
      (0x20 ≤ BITREVERSE_8.getD b 0 % 128 → BITREVERSE_8.getD b 0 % 128 ≤ 0x7A →
        decodeChar b = BITREVERSE_8.getD b 0 % 128)) ∧
    decodeLine (computeCharset 0) payloadEscapes =
      asciiBytes "A&amp;B&lt;C" ++ List.replicate 35 0x20 := by
  constructor
  · intro b _
    constructor
    · intro h
      simp only [decodeChar]
      rw [if_pos h]
    · intro h1 h2
      simp only [decodeChar]
      rw [if_neg (by omega)]
  · decide

/-- C5 witness: byte `0x5E` bit-reverses to `0x7A`, the last kept value. -/
theorem claim5_amended_printable_bound_witness :
    decodeChar 0x5E = BITREVERSE_8.getD 0x5E 0 % 128 :=
  (claim5_amended_printable_bound.1 0x5E (by decide)).2 (by decide) (by decide)

/-- C7 counterexample: the Hamming decoder is not idempotent: `0x40`
decodes to 1, but decoding the already-decoded nibble 1 yields 8. -/
theorem claim7_counterexample_not_idempotent :
    hamming_8_4 0x40 = 1 ∧ hamming_8_4 (hamming_8_4 0x40) = 8 ∧ (8 : Nat) ≠ 1 := by
  refine ⟨by decide, by decide, by decide⟩

/-- C7 amended: the decoder is total on bytes — every input maps, with no
failure path, to `bit6 + 2*bit4 + 4*bit2 + 8*bit0`, a nibble below 16 — but
it is not idempotent (re-decoding a decoded nibble can differ). -/
theorem claim7_amended_hamming_total :
    ∀ value : Nat, value < 256 →
      hamming_8_4 value =
        bit value 6 + 2 * bit value 4 + 4 * bit value 2 + 8 * bit value 0 ∧
      hamming_8_4 value < 16 := by
  intro v _
  have h6 : bit v 6 < 2 := Nat.mod_lt _ (by norm_num)
  have h4 : bit v 4 < 2 := Nat.mod_lt _ (by norm_num)
  have h2 : bit v 2 < 2 := Nat.mod_lt _ (by norm_num)
  have h0 : bit v 0 < 2 := Nat.mod_lt _ (by norm_num)
  have he : hamming_8_4 v =
      0 + 2 ^ 0 * bit v 6 + 2 ^ 1 * bit v 4 + 2 ^ 2 * bit v 2 + 2 ^ 3 * bit v 0 :=
    rfl
  rw [he]
  constructor
  · norm_num
  · omega

/-- C7 witness: the totality statement instantiated at `0x40`. -/
theorem claim7_amended_hamming_total_witness :
    hamming_8_4 0x40 =
      bit 0x40 6 + 2 * bit 0x40 4 + 4 * bit 0x40 2 + 8 * bit 0x40 0 ∧
    hamming_8_4 0x40 < 16 :=
  claim7_amended_hamming_total 0x40 (by decide)

/-- C9: a data unit whose declared length is not 44 makes the data-unit
loop stop at that unit, returning the state, samples and lines accumulated
so far; a loop that ends this way still commits its decoded lines and makes
`ParseInternal` return success.  The closing conjunct runs the concrete
buffer `TEST`-payload-then-bad-length-unit: the call returns `true` and the
`TEST` line is committed to the pending page. -/
theorem claim9_bad_length_stops_buffer :
    (∀ (st : EsParserTeletext) (pts : Int) (id len : Nat) (rest : List Nat)
        (lines : List (List Nat)) (samples : List TextSample),
      len ≠ 44 →
      parseLoop st pts (id :: len :: rest) lines samples =
        (st, samples, some lines)) ∧
    (∀ (st : EsParserTeletext) (pts : Int) (h : Nat) (bytes : List Nat)
        (st' : EsParserTeletext) (samples : List TextSample)
        (lines : List (List Nat)),
      parseLoop st pts bytes [] [] = (st', samples, some lines) →
      EsParserTeletext.ParseInternal st (h :: bytes) pts =
        (commitLines st' lines pts, samples, true)) ∧
    EsParserTeletext.ParseInternal at112State bufBadLength 1000 =
      ({ at112State with page_state_ :=
          [(112, { lines := [asciiBytes "TEST" ++ List.replicate 36 0x20],
                   pts := 1000 })] },
        [], true) := by
  refine ⟨?_, ?_, by decide⟩
  · intro st pts id len rest lines samples h
    simp only [parseLoop, parseLoopF, List.length_cons]
    rw [if_pos h]
  · intro st pts h bytes st' samples lines hLoop
    show (match parseLoop st pts bytes [] [] with
      | (st', samples, none) => (st', samples, false)
      | (st', samples, some lines) => (commitLines st' lines pts, samples, true)) =
        (commitLines st' lines pts, samples, true)
    rw [hLoop]

/-- C9 witness: the two universal parts instantiated on the concrete
bad-length buffer. -/
theorem claim9_bad_length_stops_buffer_witness :
    parseLoop at112State 1000 [0x03, 43, 0x99]
        [asciiBytes "TEST" ++ List.replicate 36 0x20] [] =
      (at112State, [], some [asciiBytes "TEST" ++ List.replicate 36 0x20]) ∧
    EsParserTeletext.ParseInternal at112State ([0x99] ++ [0x03, 43, 0x99]) 1000 =
      (commitLines at112State [] 1000, [], true) :=
  ⟨claim9_bad_length_stops_buffer.1 at112State 1000 0x03 43 [0x99]
      [asciiBytes "TEST" ++ List.replicate 36 0x20] [] (by decide),
   claim9_bad_length_stops_buffer.2.1 at112State 1000 0x99 [0x03, 43, 0x99]
      at112State [] [] (by decide)⟩

/-- C10: packets numbered 1..25 always decode to a line (no failure path,
no state change, no emission), an all-blank payload decodes to the empty
string, a buffer whose only subtitling content is a blank payload still
creates a pending page capturing the buffer PTS, and the sample emitted
for such a page carries the empty-text line. -/
theorem claim10_blank_payload_still_counts :
    (∀ (st : EsParserTeletext) (pts : Int) (data_block : List Nat)
        (magazine packet_nr : Nat),
      1 ≤ packet_nr → packet_nr ≤ 25 →
      EsParserTeletext.ParseDataBlock pts data_block packet_nr magazine st =
        (st, [], some (decodeLine st.current_charset_ data_block))) ∧
    decodeLine (computeCharset 0) (List.replicate 40 0) = [] ∧
    EsParserTeletext.Parse (EsParserTeletext.init []) bufBlank 700 =
      ({ EsParserTeletext.init [] with
          sent_info_ := true
          page_state_ := [(0, { lines := [[]], pts := 700 })] }, [], true) ∧
    (ParseAll (EsParserTeletext.init []) [(bufHdrBlank, 1000), (buf2, 2000)]).2 =
      [{ start_time := 1000, end_time := 2000, sub_stream_index := 112,
         lines := [[]] }] := by
  refine ⟨?_, by decide, by decide, by decide⟩
  intro st pts data_block magazine packet_nr h1 h2
  unfold EsParserTeletext.ParseDataBlock
  rw [if_neg (by omega), if_neg (by omega)]

/-- C10 witness: the universal part instantiated at packet number 5 on the
blank payload. -/
theorem claim10_blank_payload_still_counts_witness :
    EsParserTeletext.ParseDataBlock 700 (List.replicate 40 0) 5 1
        (EsParserTeletext.init []) =
      (EsParserTeletext.init [], [],
        some (decodeLine (EsParserTeletext.init []).current_charset_
          (List.replicate 40 0))) :=
  claim10_blank_payload_still_counts.1 (EsParserTeletext.init []) 700
    (List.replicate 40 0) 1 5 (by decide) (by decide)


/-- Any fuel of at least `bytes.length` gives the same result as
`parseLoop` itself: the fuel counter never cuts the data-unit loop short,
so `parseLoop` renders the C++ `while` loop faithfully. -/
theorem parseLoopF_fuel (f : Nat) :
    ∀ (bytes : List Nat) (st : EsParserTeletext) (pts : Int)
      (lines : List (List Nat)) (samples : List TextSample),
      bytes.length ≤ f →
      parseLoopF f st pts bytes lines samples =
        parseLoop st pts bytes lines samples := by
  induction f using Nat.strong_induction_on with
  | _ f ih =>
    intro bytes st pts lines samples h
    match f, bytes with
    | 0, [] => rfl
    | f + 1, [] => rfl
    | 0, [x] => rfl
    | f + 1, [x] => rfl
    | 0, id :: len :: rest => simp at h
    | f + 1, id :: len :: rest =>
      simp only [List.length_cons] at h
      simp only [parseLoop, parseLoopF, List.length_cons]
      split
      · rfl
      · split
        · split
          · rfl
          · rw [ih f (by omega) _ _ _ _ _ (by simp [List.length_drop]; omega),
              ih (rest.length + 1) (by omega) _ _ _ _ _
                (by simp [List.length_drop]; omega)]
        · split
          next b0 fc a1 a2 rest2 =>
            simp only [List.length_cons] at h
            split
            · rfl
            · split
              next st' newSamples dt heq =>
                rw [ih f (by omega) _ _ _ _ _
                    (by simp [List.length_drop]; omega),
                  ih ((b0 :: fc :: a1 :: a2 :: rest2).length + 1)
                    (by simp [List.length_cons]; omega) _ _ _ _ _
                    (by simp [List.length_drop, List.length_cons]; omega)]
              next st' newSamples heq =>
                rw [ih f (by omega) _ _ _ _ _
                    (by simp [List.length_drop]; omega),
                  ih ((b0 :: fc :: a1 :: a2 :: rest2).length + 1)
                    (by simp [List.length_cons]; omega) _ _ _ _ _
                    (by simp [List.length_drop, List.length_cons]; omega)]
          next hne => rfl

/-- Every sample `SendPending` emits carries exactly the index it was
called with. -/
theorem sendPending_index (index : Nat) (pts : Int) (st : EsParserTeletext) :
    ∀ s ∈ (EsParserTeletext.SendPending index pts st).2,
      s.sub_stream_index = index := by
  intro s hs
  unfold EsParserTeletext.SendPending at hs
  cases h : mapFind st.page_state_ index with
  | none => simp only [h] at hs; simp at hs
  | some blk =>
    simp only [h] at hs
    by_cases hl : blk.lines = []
    · rw [if_pos hl] at hs; simp at hs
    · rw [if_neg hl] at hs
      simp only [List.mem_singleton] at hs
      rw [hs]

/-- With a magazine of at least 1 (as the 0-to-8 remap guarantees), every
sample `ParseDataBlock` emits has sub-stream index at least 100. -/
theorem parseDataBlock_index (pts : Int) (db : List Nat) (n m : Nat)
    (st : EsParserTeletext) (hm : 1 ≤ m) :
    ∀ s ∈ (EsParserTeletext.ParseDataBlock pts db n m st).2.1,
      100 ≤ s.sub_stream_index := by
  intro s hs
  unfold EsParserTeletext.ParseDataBlock at hs
  simp only [] at hs
  split at hs
  · split at hs
    next b0 b1 rest =>
      have hidx : s ∈ (EsParserTeletext.SendPending
          (m * 100 + (10 * hamming_8_4 b1 + hamming_8_4 b0)) pts st).2 →
          100 ≤ s.sub_stream_index := by
        intro hmem
        have h2 := sendPending_index
          (m * 100 + (10 * hamming_8_4 b1 + hamming_8_4 b0)) pts st s hmem
        omega
      repeat' split at hs
      all_goals exact hidx hs
    next => simp at hs
  · split at hs
    · simp at hs
    · simp at hs

/-- Every sample the data-unit loop emits beyond those already in its
accumulator has sub-stream index at least 100: emission only happens during
header processing at the header's own `magazine*100 + page` index. -/
theorem parseLoopF_index (f : Nat) :
    ∀ (bytes : List Nat) (st : EsParserTeletext) (pts : Int)
      (lines : List (List Nat)) (samples : List TextSample) (s : TextSample),
      s ∈ (parseLoopF f st pts bytes lines samples).2.1 →
      s ∈ samples ∨ 100 ≤ s.sub_stream_index := by
  induction f with
  | zero =>
    intro bytes st pts lines samples s hs
    match bytes with
    | [] => exact Or.inl hs
    | [x] => exact Or.inl hs
    | a :: b :: t => exact Or.inl hs
  | succ f ih =>
    intro bytes st pts lines samples s hs
    match bytes with
    | [] => exact Or.inl hs
    | [x] => exact Or.inl hs
    | id :: len :: rest =>
      simp only [parseLoopF] at hs
      split at hs
      · exact Or.inl hs
      · split at hs
        · split at hs
          · exact Or.inl hs
          · exact ih _ _ _ _ _ _ hs
        · split at hs
          next b0 fc a1 a2 rest2 =>
            split at hs
            · exact Or.inl hs
            · have hmag : 1 ≤ (if bit (a1 * 256 + a2) 14 +
                  2 * bit (a1 * 256 + a2) 12 + 4 * bit (a1 * 256 + a2) 10 = 0
                  then 8 else bit (a1 * 256 + a2) 14 +
                  2 * bit (a1 * 256 + a2) 12 + 4 * bit (a1 * 256 + a2) 10) := by
                split <;> omega
              split at hs
              next st' ns dt heq =>
                rcases ih _ _ _ _ _ _ hs with hmem | hge
                · rcases List.mem_append.mp hmem with h1 | h2
                  · exact Or.inl h1
                  · exact Or.inr (parseDataBlock_index _ _ _ _ _ hmag s
                      (by rw [heq]; exact h2))
                · exact Or.inr hge
              next st' ns heq =>
                rcases ih _ _ _ _ _ _ hs with hmem | hge
                · rcases List.mem_append.mp hmem with h1 | h2
                  · exact Or.inl h1
                  · exact Or.inr (parseDataBlock_index _ _ _ _ _ hmag s
                      (by rw [heq]; exact h2))
                · exact Or.inr hge
          next => exact Or.inl hs

/-- Every sample a `ParseInternal` call emits has index at least 100. -/
theorem parseInternal_index (st : EsParserTeletext) (data : List Nat)
    (pts : Int) :
    ∀ s ∈ (EsParserTeletext.ParseInternal st data pts).2.1,
      100 ≤ s.sub_stream_index := by
  intro s hs
  match data with
  | [] => simp [EsParserTeletext.ParseInternal] at hs
  | d :: rest =>
    simp only [EsParserTeletext.ParseInternal] at hs
    split at hs
    next st' samples heq =>
      have h2 := parseLoopF_index rest.length rest st pts [] [] s
        (by rw [show parseLoopF rest.length st pts rest [] [] =
          (st', samples, none) from heq]; exact hs)
      rcases h2 with h3 | h3
      · simp at h3
      · exact h3
    next st' samples lines heq =>
      have h2 := parseLoopF_index rest.length rest st pts [] [] s
        (by rw [show parseLoopF rest.length st pts rest [] [] =
          (st', samples, some lines) from heq]; exact hs)
      rcases h2 with h3 | h3
      · simp at h3
      · exact h3

/-- Every sample emitted over any sequence of `Parse` calls has index at
least 100. -/
theorem parseAll_index :
    ∀ (buffers : List (List Nat × Int)) (st : EsParserTeletext)
      (s : TextSample),
      s ∈ (ParseAll st buffers).2 → 100 ≤ s.sub_stream_index := by
  intro buffers
  induction buffers with
  | nil => intro st s hs; simp [ParseAll] at hs
  | cons b t ih =>
    intro st s hs
    obtain ⟨data, pts⟩ := b
    simp only [ParseAll] at hs
    rcases List.mem_append.mp hs with h1 | h2
    · exact parseInternal_index _ _ _ s h1
    · exact ih _ s h2

/-- C8 amended: payload packets arriving before any header ARE accumulated
(under the current index, initially 0), but no emitted sample ever carries
an index that never received a header: every emitted sample's index is of
the form `magazine*100 + page` from a header packet, hence at least 100,
while index 0 is the only index that can hold headerless lines.  In the
packet-number-5-before-any-header scenario nothing is emitted and the line
sits pending under index 0. -/
theorem claim8_amended :
    (∀ (st : EsParserTeletext) (buffers : List (List Nat × Int))
      (s : TextSample),
      s ∈ (ParseAll st buffers).2 → 100 ≤ s.sub_stream_index) ∧
    (EsParserTeletext.Parse (EsParserTeletext.init []) buf5 77).2.1 = [] ∧
    mapFind (EsParserTeletext.Parse (EsParserTeletext.init [])
        buf5 77).1.page_state_ 0 =
      some { lines := [asciiBytes "TEST" ++ List.replicate 36 0x20],
             pts := 77 } := by
  refine ⟨?_, by decide, by decide⟩
  intro st buffers s hs
  exact parseAll_index buffers st s hs

/-- C8 witness: the invariant applied to the concrete two-buffer run that
emits the page-112 sample. -/
theorem claim8_witness :
    sample112 ∈ (ParseAll (EsParserTeletext.init [])
      [(buf1, 1000), (buf2, 2000)]).2 ∧
    100 ≤ sample112.sub_stream_index :=
  ⟨by decide, claim8_amended.1 (EsParserTeletext.init [])
    [(buf1, 1000), (buf2, 2000)] sample112 (by decide)⟩

/-- Header processing when a non-empty pending page exists at the new
header's index: exactly that page is emitted (start = its captured PTS,
end = current PTS, index = the header's index), the entry is erased, and
the current magazine/page are set to the header's values — all before any
line could be accumulated (a header never yields a line). -/
theorem claim2_general :
    ∀ (pts : Int) (st : EsParserTeletext) (m b0 b1 : Nat) (rest : List Nat)
      (blk : TextBlock),
      mapFind st.page_state_
        (m * 100 + (10 * hamming_8_4 b1 + hamming_8_4 b0)) = some blk →
      blk.lines ≠ [] →
      (EsParserTeletext.ParseDataBlock pts (b0 :: b1 :: rest) 0 m st).2.1 =
        [{ start_time := blk.pts, end_time := pts,
           sub_stream_index := m * 100 + (10 * hamming_8_4 b1 + hamming_8_4 b0),
           lines := blk.lines }] ∧
      (EsParserTeletext.ParseDataBlock pts (b0 :: b1 :: rest) 0 m st).2.2 =
        none ∧
      mapFind (EsParserTeletext.ParseDataBlock pts (b0 :: b1 :: rest)
          0 m st).1.page_state_
        (m * 100 + (10 * hamming_8_4 b1 + hamming_8_4 b0)) = none ∧
      (EsParserTeletext.ParseDataBlock pts (b0 :: b1 :: rest) 0 m st).1.magazine_
        = m ∧
      (EsParserTeletext.ParseDataBlock pts (b0 :: b1 :: rest)
          0 m st).1.page_number_ = 10 * hamming_8_4 b1 + hamming_8_4 b0 := by
  intro pts st m b0 b1 rest blk h1 h2
  have hsp : EsParserTeletext.SendPending
      (m * 100 + (10 * hamming_8_4 b1 + hamming_8_4 b0)) pts st =
      ({ st with page_state_ := (eraseKey st.page_state_
          (m * 100 + (10 * hamming_8_4 b1 + hamming_8_4 b0))) },
        [{ start_time := blk.pts, end_time := pts,
           sub_stream_index := m * 100 + (10 * hamming_8_4 b1 + hamming_8_4 b0),
           lines := blk.lines }]) := by
    unfold EsParserTeletext.SendPending
    simp only [h1]
    rw [if_neg h2]
  unfold EsParserTeletext.ParseDataBlock
  simp only []
  rw [hsp]
  refine ⟨?_, ?_, ?_, ?_, ?_⟩ <;> repeat' split
  all_goals first
    | rfl
    | exact mapFind_eraseKey _ _
    | simp_all

/-- C2 counterexample: the two-buffer scenario (header magazine 1 / page 12
at pts 1000 with payload `TEST`, then the same header at pts 2000) emits
exactly one sample with start 1000, end 2000, index 112 — but its text is
`TEST` followed by 36 decoded spaces, not `"TEST"`: the payload is 40 bytes
and trailing spaces are never stripped. -/
theorem claim2_counterexample_text_keeps_padding :
    (ParseAll (EsParserTeletext.init []) [(buf1, 1000), (buf2, 2000)]).2 =
      [sample112] ∧
    sample112.lines ≠ [asciiBytes "TEST"] := by
  exact ⟨by decide, by decide⟩

/-- C2 amended: a page-header packet for index I with a pending page at I
emits that page (start = captured PTS, end = buffer PTS, index = I) before
any new lines are accumulated under I, and the two-buffer scenario emits
exactly one sample for index 112 with start 1000, end 2000 and text `TEST`
followed by 36 spaces (the 40-byte payload's decoded padding, which the
code preserves). -/
theorem claim2_amended_emit_pending_on_new_header :
    (∀ (pts : Int) (st : EsParserTeletext) (m b0 b1 : Nat) (rest : List Nat)
      (blk : TextBlock),
      mapFind st.page_state_
        (m * 100 + (10 * hamming_8_4 b1 + hamming_8_4 b0)) = some blk →
      blk.lines ≠ [] →
      (EsParserTeletext.ParseDataBlock pts (b0 :: b1 :: rest) 0 m st).2.1 =
        [{ start_time := blk.pts, end_time := pts,
           sub_stream_index := m * 100 + (10 * hamming_8_4 b1 + hamming_8_4 b0),
           lines := blk.lines }] ∧
      (EsParserTeletext.ParseDataBlock pts (b0 :: b1 :: rest) 0 m st).2.2 =
        none ∧
      mapFind (EsParserTeletext.ParseDataBlock pts (b0 :: b1 :: rest)
          0 m st).1.page_state_
        (m * 100 + (10 * hamming_8_4 b1 + hamming_8_4 b0)) = none ∧
      (EsParserTeletext.ParseDataBlock pts (b0 :: b1 :: rest) 0 m st).1.magazine_
        = m ∧
      (EsParserTeletext.ParseDataBlock pts (b0 :: b1 :: rest)
          0 m st).1.page_number_ = 10 * hamming_8_4 b1 + hamming_8_4 b0) ∧
    (ParseAll (EsParserTeletext.init []) [(buf1, 1000), (buf2, 2000)]).2 =
      [{ start_time := 1000, end_time := 2000, sub_stream_index := 112,
         lines := [asciiBytes "TEST" ++ List.replicate 36 0x20] }] ∧
    mapFind (ParseAll (EsParserTeletext.init [])
        [(buf1, 1000), (buf2, 2000)]).1.page_state_ 112 = none :=
  ⟨claim2_general, by decide, by decide⟩

/-- C2 witness: the header-emission rule applied to the pending page
`{lines:["X"], start_pts:500}` at index 112 with a header for magazine 1,
page 12 arriving at pts 900. -/
theorem claim2_amended_emit_pending_on_new_header_witness :
    (EsParserTeletext.ParseDataBlock 900 (0x10 :: 0x40 :: List.replicate 38 0)
        0 1 pendingX112).2.1 =
      [{ start_time := 500, end_time := 900,
         sub_stream_index := 1 * 100 + (10 * hamming_8_4 0x40 + hamming_8_4 0x10),
         lines := [asciiBytes "X"] }] ∧
    mapFind (EsParserTeletext.ParseDataBlock 900
        (0x10 :: 0x40 :: List.replicate 38 0) 0 1 pendingX112).1.page_state_
      (1 * 100 + (10 * hamming_8_4 0x40 + hamming_8_4 0x10)) = none := by
  have h := claim2_amended_emit_pending_on_new_header.1 900 pendingX112 1
    0x10 0x40 (List.replicate 38 0)
    { lines := [asciiBytes "X"], pts := 500 } (by decide) (by decide)
  exact ⟨h.1, h.2.2.1⟩

/-- C8 counterexample: feeding a packet-number-5 payload before any header
does attribute a line to a page index that never saw a header: the line
lands in the pending map under index 0 (the initial current index), even
though the buffer contains no header packet (its single data unit's address
decodes to packet number 5), refuting the claim that no line is attributed
to such an index.  No sample is emitted. -/
theorem claim8_counterexample_headerless_line_attributed :
    mapFind (EsParserTeletext.Parse (EsParserTeletext.init [])
        buf5 77).1.page_state_ 0 =
      some { lines := [asciiBytes "TEST" ++ List.replicate 36 0x20],
             pts := 77 } ∧
    (EsParserTeletext.Parse (EsParserTeletext.init []) buf5 77).2.1 = [] ∧
    (EsParserTeletext.init []).magazine_ = 0 ∧
    (EsParserTeletext.init []).page_number_ = 0 ∧
    bit 0x4110 8 + 2 * bit 0x4110 6 + 4 * bit 0x4110 4 + 8 * bit 0x4110 2 +
      16 * bit 0x4110 0 = 5 := by
  refine ⟨by decide, by decide, by decide, by decide, by decide⟩

/-- C6 counterexample: a valid three-entry descriptor (declared length 15)
parses to a map containing only the first two entries — the loop counter
advances by 8 per 5-byte group, so the third declared entry (`fin`,
magazine 3, page 30, index 330) never appears in the key set. -/
theorem claim6_counterexample_third_entry_dropped :
    ParseSubtitlingDescriptor descThreeEntries =
      ([(110, asciiBytes "eng"), (220, asciiBytes "swe")], true) ∧
    mapFind (ParseSubtitlingDescriptor descThreeEntries).1 330 = none ∧
    (330 : Nat) = 3 * 100 + 30 := by
  refine ⟨by decide, by decide, by decide⟩

/-- C6 amended: for descriptors declaring one or two 5-byte entries (the
loop fully covers declared lengths of up to two groups), the parsed map is
exactly the declared entries `magazine*100 + page ↦ language` in order, with
magazine 0 remapped to 8 and `page = tens*10 + units` (for two entries,
stated for distinct indices; a duplicate index would keep the first entry,
by `emplace` semantics).  Descriptors with three or more entries are
truncated to the first `⌈L/8⌉` groups — the loop advances its byte counter
by 8 per 5-byte group — as the three-entry example shows. -/
theorem claim6_amended_descriptor_map :
    (∀ (tag c1 c2 c3 ttype mag tens units : Nat),
      mag < 8 → tens < 16 → units < 16 →
      ParseSubtitlingDescriptor
          [tag, 5, c1, c2, c3, ttype * 8 + mag, tens * 16 + units] =
        ([((if mag = 0 then 8 else mag) * 100 + (tens * 10 + units),
          [c1, c2, c3])], true)) ∧
    (∀ (tag c1 c2 c3 t1 m1 x1 u1 d1 d2 d3 t2 m2 x2 u2 : Nat),
      m1 < 8 → x1 < 16 → u1 < 16 → m2 < 8 → x2 < 16 → u2 < 16 →
      (if m1 = 0 then 8 else m1) * 100 + (x1 * 10 + u1) ≠
        (if m2 = 0 then 8 else m2) * 100 + (x2 * 10 + u2) →
      ParseSubtitlingDescriptor
          [tag, 10, c1, c2, c3, t1 * 8 + m1, x1 * 16 + u1,
           d1, d2, d3, t2 * 8 + m2, x2 * 16 + u2] =
        ([((if m1 = 0 then 8 else m1) * 100 + (x1 * 10 + u1), [c1, c2, c3]),
          ((if m2 = 0 then 8 else m2) * 100 + (x2 * 10 + u2), [d1, d2, d3])],
         true)) ∧
    ParseSubtitlingDescriptor descThreeEntries =
      ([(110, asciiBytes "eng"), (220, asciiBytes "swe")], true) := by
  refine ⟨?_, ?_, by decide⟩
  · intro tag c1 c2 c3 ttype mag tens units hm ht hu
    have e1 : (ttype * 8 + mag) % 8 = mag := by omega
    have e2 : (tens * 16 + units) / 16 = tens := by omega
    have e3 : (tens * 16 + units) % 16 = units := by omega
    unfold ParseSubtitlingDescriptor
    simp only [List.length_cons, List.length_nil]
    rw [if_pos (by omega)]
    unfold descLoop
    rw [if_pos (by omega)]
    simp only [e1, e2, e3]
    unfold descLoop
    rw [if_neg (by omega)]
    simp [emplaceKey, mapFind]
  · intro tag c1 c2 c3 t1 m1 x1 u1 d1 d2 d3 t2 m2 x2 u2 hm1 hx1 hu1 hm2 hx2
      hu2 hne
    have e1 : (t1 * 8 + m1) % 8 = m1 := by omega
    have e2 : (x1 * 16 + u1) / 16 = x1 := by omega
    have e3 : (x1 * 16 + u1) % 16 = u1 := by omega
    have e4 : (t2 * 8 + m2) % 8 = m2 := by omega
    have e5 : (x2 * 16 + u2) / 16 = x2 := by omega
    have e6 : (x2 * 16 + u2) % 16 = u2 := by omega
    unfold ParseSubtitlingDescriptor
    simp only [List.length_cons, List.length_nil]
    rw [if_pos (by omega)]
    unfold descLoop
    rw [if_pos (by omega)]
    simp only [e1, e2, e3]
    unfold descLoop
    rw [if_pos (by omega)]
    simp only [e4, e5, e6]
    unfold descLoop
    rw [if_neg (by omega)]
    simp [emplaceKey, mapFind, hne]
    split_ifs at hne ⊢ <;> omega

/-- C6 witness: a single entry with language `eng`, magazine 0 (remapped to
8) and page 55 parses to index 855, and a two-entry descriptor (`eng`
magazine 1 page 10, `swe` magazine 2 page 20) parses to exactly the two
declared keys 110 and 220. -/
theorem claim6_amended_descriptor_map_witness :
    ParseSubtitlingDescriptor
        [0x56, 5, 0x65, 0x6E, 0x67, 2 * 8 + 0, 5 * 16 + 5] =
      ([((if (0 : Nat) = 0 then 8 else 0) * 100 + (5 * 10 + 5),
        [0x65, 0x6E, 0x67])], true) ∧
    ParseSubtitlingDescriptor
        [0x56, 10, 0x65, 0x6E, 0x67, 2 * 8 + 1, 1 * 16 + 0,
         0x73, 0x77, 0x65, 2 * 8 + 2, 2 * 16 + 0] =
      ([((if (1 : Nat) = 0 then 8 else 1) * 100 + (1 * 10 + 0),
         [0x65, 0x6E, 0x67]),
        ((if (2 : Nat) = 0 then 8 else 2) * 100 + (2 * 10 + 0),
         [0x73, 0x77, 0x65])], true) :=
  ⟨claim6_amended_descriptor_map.1 0x56 0x65 0x6E 0x67 2 0 5 5
    (by decide) (by decide) (by decide),
   claim6_amended_descriptor_map.2.1 0x56 0x65 0x6E 0x67 2 1 1 0
    0x73 0x77 0x65 2 2 2 0
    (by decide) (by decide) (by decide) (by decide) (by decide) (by decide)
    (by decide)⟩
